import Mathlib

/-!
Shallow embedding of the SCTL-GFA backend core (share ledger, cadastral and
fermage engine, anomaly queries) from `backend/app/crud.py`,
`backend/app/models.py` and `backend/app/api/routes/parcelles.py`.

Python `Decimal` values are modelled as exact rationals, SQL tables as lists
of rows, SQL joins as list products filtered on the join condition, and SQL
primary-key lookup (`session.get`) as `List.find?` on the id column. The
backing store is PostgreSQL (see `migrate_access_to_postgres.py`), so
`ORDER BY ... DESC` places NULL sort keys first; the embedding reproduces
that NULLS-FIRST behaviour explicitly.
-/

namespace SctlGfa

/-- Python `Decimal`, modelled as an exact rational number. -/
abbrev Decimal := ℚ

/-- SQL `date`, modelled as an integer day ordinal (larger means later). -/
abbrev Date := ℤ

/-- Structure-kind codes, from `TypeStructure` in `models.py`
(2 = GFA, 5 = ASSOC, 6 = TSL). -/
def TypeStructure.GFA : Int := 2

/-- Structure-kind code for associations. -/
def TypeStructure.ASSOC : Int := 5

/-- Structure-kind code for Terres Solidaires du Larzac (the SCTL side). -/
def TypeStructure.TSL : Int := 6

/-- Row of the `structures` table (`Structure` in `models.py`). -/
structure Structure where
  id : Int
  nom_structure : String
  type_structure : Int
  deriving DecidableEq

/-- Row of the `personnes` table (`Personne` in `models.py`), restricted to
the columns read by the queries under verification. -/
structure Personne where
  id : Int
  nom : String
  prenom : Option String
  code_postal : Option String
  ville : Option String
  npai : Bool
  decede : Bool
  termine : Bool
  fondateur : Bool
  de_droit : Bool
  adherent : Bool
  est_personne_morale : Bool
  id_structure : Option Int
  deriving DecidableEq

/-- Row of the `actes` table (`Acte` in `models.py`). -/
structure Acte where
  id : Int
  code_acte : String
  date_acte : Option Date
  provisoire : Bool
  id_structure : Option Int
  deriving DecidableEq

/-- Row of the `mouvements` table (`Mouvement` in `models.py`). -/
structure Mouvement where
  id : Int
  date_operation : Option Date
  sens : Bool
  nb_parts : Int
  id_personne : Int
  id_acte : Option Int
  deriving DecidableEq

/-- Row of the `numeros_parts` table (`NumeroPart` in `models.py`). -/
structure NumeroPart where
  id : Int
  num_part : Int
  termine : Bool
  distribue : Bool
  etat : Int
  id_personne : Int
  id_mouvement : Option Int
  id_structure : Option Int
  deriving DecidableEq

/-- Row of the `valeurs_points` table (`ValeurPoint` in `models.py`).
Note that `annee` carries a plain (non-unique) index in the model. -/
structure ValeurPoint where
  id : Int
  annee : Int
  valeur_point_gfa : Decimal
  valeur_point_sctl : Decimal
  valeur_supp_gfa : Decimal
  valeur_supp_sctl : Decimal
  deriving DecidableEq

/-- Row of the `parcelles` table (`Parcelle` in `models.py`), restricted to
the columns read by the queries under verification. -/
structure Parcelle where
  id : Int
  parcelle : String
  sctl : Bool
  id_commune : Int
  id_lieu_dit : Option Int
  id_gfa : Option Int
  deriving DecidableEq

/-- Row of the `subdivisions` table (`Subdivision` in `models.py`),
restricted to the columns read by the queries under verification. -/
structure Subdivision where
  id : Int
  division : Int
  subdivision : Int
  surface : Decimal
  revenu : Decimal
  duree_fermage : Int
  point_fermage : Decimal
  id_parcelle : Int
  id_exploitant : Option Int
  deriving DecidableEq

/-- `calculer_montant_fermage` from `crud.py`: the rent formula
`(points * surface) / 10000 * point_value`, plus an optional duration
supplement of `result * supplement / 100`. -/
def calculer_montant_fermage (point_fermage surface : Decimal) (est_sctl : Bool)
    (valeur_point_gfa valeur_point_sctl : Decimal) (supp_gfa supp_sctl : Bool)
    (valeur_supp_gfa valeur_supp_sctl : Decimal) : Decimal :=
  let result := (point_fermage * surface) / 10000
  if est_sctl then
    let r := result * valeur_point_sctl
    if supp_sctl then r + ((r * valeur_supp_sctl) / 100) else r
  else
    let r := result * valeur_point_gfa
    if supp_gfa then r + ((r * valeur_supp_gfa) / 100) else r

/-- C1: `calculer_montant_fermage` computes, in exact decimal arithmetic,
`((point_fermage * surface) / 10000) * valeur_point_sctl` when `est_sctl`
is true (plus `result * valeur_supp_sctl / 100` when `supp_sctl`), and
`((point_fermage * surface) / 10000) * valeur_point_gfa` when `est_sctl`
is false (plus `result * valeur_supp_gfa / 100` when `supp_gfa`); the
concrete input `point_fermage = 10`, `surface = 2.5`, `est_sctl = false`,
`valeur_point_gfa = 1.69` with no supplement yields exactly `0.004225`;
and two calls with identical inputs return identical results. -/
theorem c1_calculer_montant_fermage_exact :
    (∀ p s vg vs sg ss vsg vss, calculer_montant_fermage p s true vg vs sg ss vsg vss =
      (if ss then ((p * s) / 10000) * vs + (((p * s) / 10000) * vs) * vss / 100
       else ((p * s) / 10000) * vs)) ∧
    (∀ p s vg vs sg ss vsg vss, calculer_montant_fermage p s false vg vs sg ss vsg vss =
      (if sg then ((p * s) / 10000) * vg + (((p * s) / 10000) * vg) * vsg / 100
       else ((p * s) / 10000) * vg)) ∧
    calculer_montant_fermage 10 (25 / 10) false (169 / 100) 0 false false 0 0
      = 4225 / 1000000 ∧
    (∀ p s es vg vs sg ss vsg vss, calculer_montant_fermage p s es vg vs sg ss vsg vss
      = calculer_montant_fermage p s es vg vs sg ss vsg vss) := by
  refine ⟨?_, ?_, ?_, ?_⟩
  · intro p s vg vs sg ss vsg vss
    cases ss <;> simp [calculer_montant_fermage, mul_div_assoc]
  · intro p s vg vs sg ss vsg vss
    cases sg <;> simp [calculer_montant_fermage, mul_div_assoc]
  · norm_num [calculer_montant_fermage]
  · intro p s es vg vs sg ss vsg vss
    rfl

/-- `get_valeur_point_by_annee` from `crud.py`: first row whose `annee`
column equals the requested year (`.first()` on the select). -/
def get_valeur_point_by_annee (rows : List ValeurPoint) (annee : Int) :
    Option ValeurPoint :=
  rows.find? (fun v => v.annee == annee)

/-- SQL inner join `Subdivision JOIN Parcelle ON Subdivision.id_parcelle =
Parcelle.id`, as the filtered list product. -/
def joinSubdivisionParcelle (subdivisions : List Subdivision)
    (parcelles : List Parcelle) : List (Subdivision × Parcelle) :=
  subdivisions.flatMap (fun sub =>
    (parcelles.filter (fun par => sub.id_parcelle == par.id)).map (fun par => (sub, par)))

/-- Result record of `get_fermage_totaux` (`FermageTotaux` in `models.py`). -/
structure FermageTotaux where
  total_surface : Decimal
  total_revenu : Decimal
  total_montant : Decimal
  nb_parcelles : Nat
  deriving DecidableEq

/-- Optional where clauses of `get_fermage_totaux`: tenant filter on the
subdivision, commune and sctl filters on the joined parcelle. -/
def fermageMatches (id_exploitant id_commune : Option Int) (sctl : Option Bool)
    (r : Subdivision × Parcelle) : Bool :=
  (match id_exploitant with
   | some e => r.1.id_exploitant == some e
   | none => true) &&
  (match id_commune with
   | some c => r.2.id_commune == c
   | none => true) &&
  (match sctl with
   | some f => r.2.sctl == f
   | none => true)

/-- Per-subdivision rent contribution inside the `get_fermage_totaux` loop:
`est_sctl = sub.parcelle.sctl if sub.parcelle else False`, then
`calculer_montant_fermage` with no duration supplement. The relationship
`sub.parcelle` is the primary-key lookup of `sub.id_parcelle`. -/
def montantForSubdivision (parcelles : List Parcelle) (vp : ValeurPoint)
    (sub : Subdivision) : Decimal :=
  let est_sctl := match parcelles.find? (fun par => sub.id_parcelle == par.id) with
    | some par => par.sctl
    | none => false
  calculer_montant_fermage sub.point_fermage sub.surface est_sctl
    vp.valeur_point_gfa vp.valeur_point_sctl false false
    vp.valeur_supp_gfa vp.valeur_supp_sctl

/-- `get_fermage_totaux` from `crud.py`: filter the subdivision-parcelle
join, then accumulate surface, revenue, rent (only when a point-value row
was supplied) and the set of distinct parcelle ids. The accumulation loop
is modelled by sums over the matching rows and the python `set` of
parcelle ids by `dedup`. -/
def get_fermage_totaux (subdivisions : List Subdivision) (parcelles : List Parcelle)
    (id_exploitant id_commune : Option Int) (sctl : Option Bool)
    (valeur_point : Option ValeurPoint) : FermageTotaux :=
  let subs := ((joinSubdivisionParcelle subdivisions parcelles).filter
    (fermageMatches id_exploitant id_commune sctl)).map (fun r => r.1)
  { total_surface := (subs.map (fun s => s.surface)).sum
    total_revenu := (subs.map (fun s => s.revenu)).sum
    total_montant :=
      match valeur_point with
      | some vp => (subs.map (montantForSubdivision parcelles vp)).sum
      | none => 0
    nb_parcelles := ((subs.map (fun s => s.id_parcelle)).dedup).length }

/-- Route `calculate_fermage` from `api/routes/parcelles.py` (the returned
`montant_fermage` value). Python truthiness is modelled exactly: `if annee:`
is false for `None` and for `0`, and `x or Decimal("1.0")` replaces a zero
decimal by the default. When no point-value row resolves, both point values
default to `1.0` and both supplements to `0.0`. -/
def calculate_fermage (rows : List ValeurPoint) (point_fermage surface : Decimal)
    (sctl : Bool) (annee : Option Int) : Decimal :=
  let valeur_point : Option ValeurPoint :=
    match annee with
    | some a => if a == 0 then none else get_valeur_point_by_annee rows a
    | none => none
  let valeur_point_gfa : Decimal :=
    match valeur_point with
    | some vp => if vp.valeur_point_gfa == 0 then 1 else vp.valeur_point_gfa
    | none => 1
  let valeur_point_sctl : Decimal :=
    match valeur_point with
    | some vp => if vp.valeur_point_sctl == 0 then 1 else vp.valeur_point_sctl
    | none => 1
  let valeur_supp_gfa : Decimal :=
    match valeur_point with
    | some vp => if vp.valeur_supp_gfa == 0 then 0 else vp.valeur_supp_gfa
    | none => 0
  let valeur_supp_sctl : Decimal :=
    match valeur_point with
    | some vp => if vp.valeur_supp_sctl == 0 then 0 else vp.valeur_supp_sctl
    | none => 0
  calculer_montant_fermage point_fermage surface sctl
    valeur_point_gfa valeur_point_sctl false false
    valeur_supp_gfa valeur_supp_sctl

/-- C2 counterexample: with an empty point-value table, the route
`calculate_fermage` invoked for year 2023 with `point_fermage = 10000`,
`surface = 1`, `sctl = false` returns `1`, not `0`: the route defaults the
missing point values to `1.0` instead of reporting a zero amount. -/
theorem c2_calculate_fermage_missing_year_counterexample :
    calculate_fermage [] 10000 1 false (some 2023) = 1 ∧
    calculate_fermage [] 10000 1 false (some 2023) ≠ 0 := by
  constructor <;> norm_num [calculate_fermage, get_valeur_point_by_annee,
    calculer_montant_fermage]

/-- C2 amended: for every year `y` with no `ValeurPoint` row, the route
`calculate_fermage` invoked with `annee = y` does not raise and returns
`(point_fermage * surface) / 10000` — the formula with both point values
defaulted to `1.0` — rather than `0`; the aggregate `get_fermage_totaux`,
by contrast, reports `total_montant = 0` when no point-value row resolves. -/
theorem c2_calculate_fermage_missing_year_amended
    (rows : List ValeurPoint) (p s : Decimal) (c : Bool) (a : Int)
    (h : ∀ r ∈ rows, r.annee ≠ a) :
    calculate_fermage rows p s c (some a) = (p * s) / 10000 ∧
    (∀ subs parcs fe fc fs,
      (get_fermage_totaux subs parcs fe fc fs none).total_montant = 0) := by
  constructor
  · have hfind : rows.find? (fun v => v.annee == a) = none := by
      rw [List.find?_eq_none]
      intro r hr
      simpa using h r hr
    cases h0 : (a == 0) <;>
      cases c <;>
        simp [calculate_fermage, get_valeur_point_by_annee, h0, hfind,
          calculer_montant_fermage]
  · intro subs parcs fe fc fs
    rfl

/-- C2 witness: instantiation of the amended statement at the empty
point-value table and year 2023. -/
theorem c2_calculate_fermage_missing_year_witness :
    (∀ r ∈ ([] : List ValeurPoint), r.annee ≠ 2023) ∧
    calculate_fermage [] 10 (25 / 10) false (some 2023) = (10 * (25 / 10)) / 10000 :=
  ⟨by simp,
   (c2_calculate_fermage_missing_year_amended [] 10 (25 / 10) false 2023 (by simp)).1⟩

/-- Field update performed by one iteration of the `transfer_parts` loop:
`part.id_personne = new_owner_id; part.id_mouvement = mouvement_id`. -/
def updatePartOwner (new_owner_id mouvement_id : Int) (p : NumeroPart) : NumeroPart :=
  { p with id_personne := new_owner_id, id_mouvement := some mouvement_id }

/-- Loop of `transfer_parts` from `crud.py`: for each requested id, look the
part up by primary key; when found, reassign its owner and mouvement in the
store and record the id as transferred. Returns the final store and the
list of transferred ids. -/
def transferLoop (parts : List NumeroPart) (part_ids : List Int)
    (new_owner_id mouvement_id : Int) : List NumeroPart × List Int :=
  match part_ids with
  | [] => (parts, [])
  | i :: rest =>
    if (parts.find? (fun p => p.id == i)).isSome then
      let parts2 := parts.map (fun p =>
        if p.id == i then updatePartOwner new_owner_id mouvement_id p else p)
      let r := transferLoop parts2 rest new_owner_id mouvement_id
      (r.1, i :: r.2)
    else
      transferLoop parts rest new_owner_id mouvement_id

/-- `transfer_parts` from `crud.py`: run the loop, then (as `session.refresh`
does) re-read each transferred part from the committed store by primary key.
Returns the final store and the transferred parts. -/
def transfer_parts (parts : List NumeroPart) (part_ids : List Int)
    (new_owner_id mouvement_id : Int) : List NumeroPart × List NumeroPart :=
  let r := transferLoop parts part_ids new_owner_id mouvement_id
  (r.1, r.2.filterMap (fun i => r.1.find? (fun p => p.id == i)))

theorem updatePartOwner_id (o m : Int) (p : NumeroPart) :
    (updatePartOwner o m p).id = p.id := rfl

theorem condUpdate_id (o m : Int) (c : Bool) (p : NumeroPart) :
    (if c then updatePartOwner o m p else p).id = p.id := by
  cases c <;> rfl

/-- Closed form of the transfer loop: a row is updated exactly when its id
occurs in the requested id list, and the transferred ids are the requested
ids that match some row. -/
theorem transferLoop_closed_form (part_ids : List Int) (parts : List NumeroPart)
    (o m : Int) :
    transferLoop parts part_ids o m =
      (parts.map (fun p =>
        if part_ids.contains p.id then updatePartOwner o m p else p),
       part_ids.filter (fun i => parts.any (fun p => p.id == i))) := by
  induction part_ids generalizing parts with
  | nil => simp [transferLoop]
  | cons i rest ih =>
    have hid : ∀ p : NumeroPart,
        (if (p.id == i) then updatePartOwner o m p else p).id = p.id :=
      fun p => condUpdate_id o m (p.id == i) p
    by_cases hfound : (parts.find? (fun p => p.id == i)).isSome = true
    · rw [transferLoop, if_pos hfound]
      simp only [ih, Prod.mk.injEq]
      have hany : parts.any (fun p => p.id == i) = true := by
        rw [List.any_eq_true]
        rcases List.find?_isSome.mp hfound with ⟨x, hx, hpx⟩
        exact ⟨x, hx, hpx⟩
      refine ⟨?_, ?_⟩
      · rw [List.map_map]
        apply List.map_congr_left
        intro p _
        by_cases hi : p.id = i
        · by_cases hrest : p.id ∈ rest <;>
            simp [Function.comp, hi, hrest, updatePartOwner]
        · by_cases hrest : p.id ∈ rest <;>
            simp [Function.comp, hi, hrest]
      · simp only [List.filter_cons, hany, if_true]
        congr 1
        apply List.filter_congr
        intro j _
        rw [List.any_map]
        congr 1
        funext p
        simp only [Function.comp]
        rw [hid]
    · rw [transferLoop, if_neg hfound]
      simp only [ih, Prod.mk.injEq]
      have hany : parts.any (fun p => p.id == i) = false := by
        rw [Bool.eq_false_iff]
        intro hc
        rcases List.any_eq_true.mp hc with ⟨x, hx, hpx⟩
        exact hfound (List.find?_isSome.mpr ⟨x, hx, hpx⟩)
      refine ⟨?_, ?_⟩
      · apply List.map_congr_left
        intro p hp
        have hpi : ¬ p.id = i := by
          intro hc
          exact (Bool.eq_false_iff.mp hany)
            (List.any_eq_true.mpr ⟨p, hp, beq_iff_eq.mpr hc⟩)
        by_cases hrest : p.id ∈ rest <;> simp [hpi, hrest]
      · simp [List.filter_cons, hany]

/-- Final store of a transfer, in closed form. -/
theorem transfer_parts_fst (parts : List NumeroPart) (part_ids : List Int)
    (o m : Int) :
    (transfer_parts parts part_ids o m).1 =
      parts.map (fun p =>
        if part_ids.contains p.id then updatePartOwner o m p else p) := by
  simp only [transfer_parts, transferLoop_closed_form]

/-- Returned parts of a transfer, in closed form: the found ids re-read from
the final store. -/
theorem transfer_parts_snd (parts : List NumeroPart) (part_ids : List Int)
    (o m : Int) :
    (transfer_parts parts part_ids o m).2 =
      (part_ids.filter (fun i => parts.any (fun p => p.id == i))).filterMap
        (fun i => (parts.map (fun p =>
          if part_ids.contains p.id then updatePartOwner o m p else p)).find?
            (fun p => p.id == i)) := by
  simp only [transfer_parts, transferLoop_closed_form]

/-- Rows whose id is not among the requested ids are exactly unchanged by
the transfer. -/
theorem transfer_parts_untouched (parts : List NumeroPart) (part_ids : List Int)
    (o m : Int) :
    (transfer_parts parts part_ids o m).1.filter
        (fun p => !(part_ids.contains p.id))
      = parts.filter (fun p => !(part_ids.contains p.id)) := by
  rw [transfer_parts_fst]
  induction parts with
  | nil => rfl
  | cons p ps ih =>
    simp only [List.map_cons, List.filter_cons]
    by_cases hc : part_ids.contains p.id = true
    · rw [if_pos hc]
      simp only [updatePartOwner_id, hc, Bool.not_true]
      simpa using ih
    · rw [if_neg hc, ih]

/-- Re-reading each transferred id from the final store yields rows whose
ids are exactly the transferred ids, in order. -/
theorem filterMap_find_ids (fin : List NumeroPart) (ts : List Int)
    (h : ∀ i ∈ ts, ∃ r, fin.find? (fun p => p.id == i) = some r ∧ r.id = i) :
    (ts.filterMap (fun i => fin.find? (fun p => p.id == i))).map (fun r => r.id)
      = ts := by
  induction ts with
  | nil => rfl
  | cons i rest ih =>
    rcases h i (List.mem_cons_self i rest) with ⟨r, hr, hrid⟩
    rw [List.filterMap_cons, hr]
    simp only [List.map_cons, hrid]
    rw [ih (fun j hj => h j (List.mem_cons_of_mem i hj))]

/-- C4: `transfer_parts` reassigns `id_personne` and `id_mouvement` on
exactly those requested ids that match an existing part and returns exactly
those parts (each carrying the new owner and mouvement); requested ids with
no matching part are skipped and absent from the result, and store rows
whose id was not requested stay untouched. In particular, for a store
holding parts 1 and 3, the request `[1, 2, 3]` with `new_owner_id = 42` and
`mouvement_id = 7` returns parts `[1, 3]`, both with `id_personne = 42` and
`id_mouvement = 7`. -/
theorem c4_transfer_parts_correct (parts : List NumeroPart) (part_ids : List Int)
    (o m : Int) :
    ((transfer_parts parts part_ids o m).2.map (fun r => r.id)
        = part_ids.filter (fun i => parts.any (fun p => p.id == i))) ∧
    ((transfer_parts parts part_ids o m).2.all
        (fun r => r.id_personne == o && r.id_mouvement == some m) = true) ∧
    ((transfer_parts parts part_ids o m).1.filter
        (fun p => !(part_ids.contains p.id))
      = parts.filter (fun p => !(part_ids.contains p.id))) ∧
    (transfer_parts
        [⟨1, 1, false, false, 0, 5, none, some 1⟩,
         ⟨3, 2, false, false, 0, 5, none, some 1⟩] [1, 2, 3] 42 7
      = ([⟨1, 1, false, false, 0, 42, some 7, some 1⟩,
          ⟨3, 2, false, false, 0, 42, some 7, some 1⟩],
         [⟨1, 1, false, false, 0, 42, some 7, some 1⟩,
          ⟨3, 2, false, false, 0, 42, some 7, some 1⟩])) := by
  refine ⟨?_, ?_, transfer_parts_untouched parts part_ids o m, by decide⟩
  · rw [transfer_parts_snd]
    apply filterMap_find_ids
    intro i hi
    have hex : ∃ p ∈ parts, (p.id == i) = true :=
      List.any_eq_true.mp (List.mem_filter.mp hi).2
    rcases hex with ⟨p, hp, hpi⟩
    have hsome : ((parts.map (fun p =>
        if part_ids.contains p.id then updatePartOwner o m p else p)).find?
          (fun p => p.id == i)).isSome = true := by
      apply List.find?_isSome.mpr
      refine ⟨if part_ids.contains p.id then updatePartOwner o m p else p,
        List.mem_map_of_mem _ hp, ?_⟩
      rw [condUpdate_id]
      exact hpi
    rcases Option.isSome_iff_exists.mp hsome with ⟨r, hr⟩
    have hbeq := List.find?_some hr
    exact ⟨r, hr, beq_iff_eq.mp hbeq⟩
  · rw [List.all_eq_true]
    intro r hr
    rw [transfer_parts_snd] at hr
    rcases List.mem_filterMap.mp hr with ⟨i, hi, hfind⟩
    have hbeq := List.find?_some hfind
    have hrid : r.id = i := beq_iff_eq.mp hbeq
    have hrmem := List.mem_of_find?_eq_some hfind
    rcases List.mem_map.mp hrmem with ⟨p, hp, hvp⟩
    have hpid : p.id = i := by
      rw [← hrid, ← hvp, condUpdate_id]
    have hcont : part_ids.contains p.id = true := by
      rw [List.contains_eq_any_beq, List.any_eq_true]
      exact ⟨i, List.mem_of_mem_filter hi, by rw [hpid]; exact beq_self_eq_true i⟩
    rw [if_pos hcont] at hvp
    rw [← hvp]
    simp [updatePartOwner]

/-- C10: the transfer modifies only the `id_personne` and `id_mouvement`
columns — `id`, `num_part`, `termine`, `distribue`, `etat` and
`id_structure` of every row are preserved positionally — and every row
whose id is not among the requested ids is entirely unchanged. -/
theorem c10_transfer_parts_frame (parts : List NumeroPart) (part_ids : List Int)
    (o m : Int) :
    List.Forall₂ (fun a b => b.id = a.id ∧ b.num_part = a.num_part ∧
        b.termine = a.termine ∧ b.distribue = a.distribue ∧ b.etat = a.etat ∧
        b.id_structure = a.id_structure) parts (transfer_parts parts part_ids o m).1 ∧
    ((transfer_parts parts part_ids o m).1.filter
        (fun p => !(part_ids.contains p.id))
      = parts.filter (fun p => !(part_ids.contains p.id))) := by
  refine ⟨?_, transfer_parts_untouched parts part_ids o m⟩
  rw [transfer_parts_fst]
  rw [List.forall₂_map_right_iff]
  rw [List.forall₂_same]
  intro p _
  by_cases hc : part_ids.contains p.id = true
  · rw [if_pos hc]
    exact ⟨rfl, rfl, rfl, rfl, rfl, rfl⟩
  · rw [if_neg hc]
    exact ⟨rfl, rfl, rfl, rfl, rfl, rfl⟩

/-- `find_parts_sans_mouvements` from `crud.py`: parts whose `id_mouvement`
is NULL, optionally restricted to a structure. -/
def find_parts_sans_mouvements (parts : List NumeroPart)
    (id_structure : Option Int) : List NumeroPart :=
  let base := parts.filter (fun p => p.id_mouvement == none)
  match id_structure with
  | some s => base.filter (fun p => p.id_structure == some s)
  | none => base

/-- Store effect of `update_numero_part` applied with only the
`id_mouvement` field supplied: the row with the given primary key gets its
`id_mouvement` set, all other rows are unchanged. -/
def set_part_mouvement (parts : List NumeroPart) (part_id mouvement_id : Int) :
    List NumeroPart :=
  parts.map (fun p =>
    if p.id == part_id then { p with id_mouvement := some mouvement_id } else p)

/-- C9: `find_parts_sans_mouvements` returns exactly the parts whose
`id_mouvement` is NULL, restricted to the given structure when one is
supplied; after a part receives a mouvement via an update, no row with its
id remains in the query result. The concrete scenario: a part with
`id_mouvement = None` is in the result, and after assigning it mouvement 9
the result is empty. -/
theorem c9_find_parts_sans_mouvements_correct :
    (∀ (parts : List NumeroPart) (p : NumeroPart),
      p ∈ find_parts_sans_mouvements parts none ↔
        p ∈ parts ∧ p.id_mouvement = none) ∧
    (∀ (parts : List NumeroPart) (s : Int) (p : NumeroPart),
      p ∈ find_parts_sans_mouvements parts (some s) ↔
        p ∈ parts ∧ p.id_mouvement = none ∧ p.id_structure = some s) ∧
    (∀ (parts : List NumeroPart) (pid mid : Int) (sOpt : Option Int),
      (find_parts_sans_mouvements (set_part_mouvement parts pid mid)
        sOpt).filter (fun q => q.id == pid) = []) ∧
    (find_parts_sans_mouvements [⟨4, 1, false, false, 0, 5, none, some 1⟩] none
      = [⟨4, 1, false, false, 0, 5, none, some 1⟩]) ∧
    (find_parts_sans_mouvements
      (set_part_mouvement [⟨4, 1, false, false, 0, 5, none, some 1⟩] 4 9) none
      = []) := by
  have hbase : ∀ (parts : List NumeroPart) (p : NumeroPart),
      p ∈ parts.filter (fun p => p.id_mouvement == none) ↔
        p ∈ parts ∧ p.id_mouvement = none := by
    intro parts p
    rw [List.mem_filter]
    constructor
    · rintro ⟨h1, h2⟩
      exact ⟨h1, beq_iff_eq.mp h2⟩
    · rintro ⟨h1, h2⟩
      exact ⟨h1, beq_iff_eq.mpr h2⟩
  refine ⟨?_, ?_, ?_, by decide, by decide⟩
  · intro parts p
    exact hbase parts p
  · intro parts s p
    rw [find_parts_sans_mouvements]
    rw [List.mem_filter, List.mem_filter]
    constructor
    · rintro ⟨⟨h1, h2⟩, h3⟩
      exact ⟨h1, beq_iff_eq.mp h2, beq_iff_eq.mp h3⟩
    · rintro ⟨h1, h2, h3⟩
      exact ⟨⟨h1, beq_iff_eq.mpr h2⟩, beq_iff_eq.mpr h3⟩
  · intro parts pid mid sOpt
    rw [List.filter_eq_nil_iff]
    intro q hq
    have hqnone : q.id_mouvement = none := by
      cases sOpt with
      | none => exact ((hbase _ q).mp hq).2
      | some s =>
        rw [find_parts_sans_mouvements] at hq
        rw [List.mem_filter] at hq
        exact ((hbase _ q).mp hq.1).2
    have hqmem : q ∈ set_part_mouvement parts pid mid := by
      cases sOpt with
      | none => exact ((hbase _ q).mp hq).1
      | some s =>
        rw [find_parts_sans_mouvements] at hq
        rw [List.mem_filter] at hq
        exact ((hbase _ q).mp hq.1).1
    rcases List.mem_map.mp hqmem with ⟨p, _, hvp⟩
    intro hqid
    have hpid : p.id = pid := by
      by_cases hc : (p.id == pid) = true
      · exact beq_iff_eq.mp hc
      · rw [if_neg hc] at hvp
        rw [hvp] at hc
        exact absurd hqid hc
    rw [if_pos (beq_iff_eq.mpr hpid)] at hvp
    rw [← hvp] at hqnone
    exact Option.noConfusion hqnone

/-- SQL inner join `NumeroPart JOIN Structure ON NumeroPart.id_structure =
Structure.id`, as the filtered list product. -/
def joinPartStructure (parts : List NumeroPart) (structures : List Structure) :
    List (NumeroPart × Structure) :=
  parts.flatMap (fun np =>
    (structures.filter (fun st => np.id_structure == some st.id)).map
      (fun st => (np, st)))

/-- Single-personne count query of `get_personne_with_parts`: count of the
part-structure join rows with the given owner, `termine == False` and the
given structure kind. The source issues it twice, at `TypeStructure.GFA`
and at `TypeStructure.TSL`. -/
def partsCountQuery (parts : List NumeroPart) (structures : List Structure)
    (personne_id t : Int) : Nat :=
  ((joinPartStructure parts structures).filter (fun r =>
    r.1.id_personne == personne_id && r.1.termine == false &&
      r.2.type_structure == t)).length

/-- Read-model row of `get_personne_with_parts` (`PersonneWithParts` in
`models.py`): the personne columns plus the three computed counts. -/
structure PersonneWithParts where
  personne : Personne
  nb_parts_gfa : Nat
  nb_parts_sctl : Nat
  nb_parts_total : Nat
  deriving DecidableEq

/-- `get_personne_with_parts` from `crud.py`: primary-key lookup of the
personne, then the two single-row count queries. -/
def get_personne_with_parts (personnes : List Personne) (parts : List NumeroPart)
    (structures : List Structure) (personne_id : Int) : Option PersonneWithParts :=
  match personnes.find? (fun p => p.id == personne_id) with
  | none => none
  | some personne =>
    let gfa_count := partsCountQuery parts structures personne_id TypeStructure.GFA
    let sctl_count := partsCountQuery parts structures personne_id TypeStructure.TSL
    some ⟨personne, gfa_count, sctl_count, gfa_count + sctl_count⟩

/-- Grouped subquery of `get_personnes_with_parts`: the qualifying join rows
(`termine == False`, given structure kind) grouped by `id_personne` with a
count per group. SQL GROUP BY is modelled as the list of distinct keys each
paired with its multiplicity. -/
def partsSubquery (parts : List NumeroPart) (structures : List Structure)
    (t : Int) : List (Int × Nat) :=
  let keys := ((joinPartStructure parts structures).filter (fun r =>
    r.1.termine == false && r.2.type_structure == t)).map
      (fun r => r.1.id_personne)
  keys.dedup.map (fun k => (k, keys.count k))

/-- `func.coalesce(subquery.c.count, 0)` after the outer join on
`Personne.id == subquery.c.id_personne`. -/
def coalesceCount (groups : List (Int × Nat)) (k : Int) : Nat :=
  match groups.lookup k with
  | some n => n
  | none => 0

/-- Whether the second character list starts with the first. -/
def charsStartWith : List Char → List Char → Bool
  | [], _ => true
  | _ :: _, [] => false
  | a :: pat, b :: s => a == b && charsStartWith pat s

/-- Whether the second character list contains the first as a contiguous
run. -/
def charsContain (pat s : List Char) : Bool :=
  match s with
  | [] => charsStartWith pat []
  | _ :: rest => charsStartWith pat s || charsContain pat rest

/-- SQL `column ILIKE %pattern%`: case-insensitive substring containment. -/
def likeContains (column pattern : String) : Bool :=
  charsContain pattern.toLower.toList column.toLower.toList

/-- The eleven optional where clauses shared by the `get_personnes` family
of queries; python truthiness makes an empty-string filter a no-op, and a
comparison of a NULL column with a value is not a match. -/
def personneMatches (fnom fville fcp : Option String) (fid_structure : Option Int)
    (fnpai fdecede ftermine ffondateur fde_droit fadherent fest_pm : Option Bool)
    (p : Personne) : Bool :=
  (match fnom with
   | some s => if s = "" then true else likeContains p.nom s
   | none => true) &&
  (match fville with
   | some s =>
     if s = "" then true else
       match p.ville with
       | some v => likeContains v s
       | none => false
   | none => true) &&
  (match fcp with
   | some s => if s = "" then true else p.code_postal == some s
   | none => true) &&
  (match fid_structure with
   | some v => p.id_structure == some v
   | none => true) &&
  (match fnpai with
   | some v => p.npai == v
   | none => true) &&
  (match fdecede with
   | some v => p.decede == v
   | none => true) &&
  (match ftermine with
   | some v => p.termine == v
   | none => true) &&
  (match ffondateur with
   | some v => p.fondateur == v
   | none => true) &&
  (match fde_droit with
   | some v => p.de_droit == v
   | none => true) &&
  (match fadherent with
   | some v => p.adherent == v
   | none => true) &&
  (match fest_pm with
   | some v => p.est_personne_morale == v
   | none => true)

/-- String comparison used for `ORDER BY`: lexicographic less-than. -/
def strLtb (a b : String) : Bool := compare a b == Ordering.lt

/-- `ORDER BY prenom` on a nullable column, ascending: PostgreSQL places
NULLs last in ascending order. -/
def prenomLe : Option String → Option String → Bool
  | none, none => true
  | none, some _ => false
  | some _, none => true
  | some a, some b => strLtb a b || a == b

/-- `ORDER BY nom, prenom` ascending. -/
def personneLe (a b : Personne) : Bool :=
  strLtb a.nom b.nom || (a.nom == b.nom && prenomLe a.prenom b.prenom)

/-- `get_personnes_with_parts` from `crud.py`: filter, count with the same
eleven clauses, order by `(nom, prenom)`, paginate, and decorate each page
row with the coalesced grouped counts. -/
def get_personnes_with_parts (personnes : List Personne) (parts : List NumeroPart)
    (structures : List Structure) (skip limit : Nat)
    (fnom fville fcp : Option String) (fid_structure : Option Int)
    (fnpai fdecede ftermine ffondateur fde_droit fadherent fest_pm : Option Bool) :
    List PersonneWithParts × Nat :=
  let pm := personneMatches fnom fville fcp fid_structure fnpai fdecede ftermine
    ffondateur fde_droit fadherent fest_pm
  let filtered := personnes.filter pm
  let count := filtered.length
  let sorted := List.insertionSort (fun a b => personneLe a b = true) filtered
  let page := (sorted.drop skip).take limit
  (page.map (fun p =>
    let g := coalesceCount (partsSubquery parts structures TypeStructure.GFA) p.id
    let s := coalesceCount (partsSubquery parts structures TypeStructure.TSL) p.id
    ⟨p, g, s, g + s⟩), count)

/-- Looking a key up in an association list whose values are a function of
the key returns that function value whenever the key occurs. -/
theorem lookup_keyed_map (ks : List Int) (f : Int → Nat) (k : Int) :
    (ks.map (fun j => (j, f j))).lookup k
      = if k ∈ ks then some (f k) else none := by
  induction ks with
  | nil => simp
  | cons j rest ih =>
    rw [List.map_cons, List.lookup_cons]
    by_cases hk : k = j
    · subst hk
      simp
    · have hbeq : (k == j) = false := beq_eq_false_iff_ne.mpr hk
      simp only [hbeq, ih]
      simp [List.mem_cons, hk]

/-- Coalesced lookup into a GROUP BY COUNT result equals a direct count of
the key column. -/
theorem coalesce_group_count (ks : List Int) (k : Int) :
    coalesceCount (ks.dedup.map (fun j => (j, ks.count j))) k = ks.count k := by
  rw [coalesceCount, lookup_keyed_map]
  by_cases hk : k ∈ ks.dedup
  · rw [if_pos hk]
  · rw [if_neg hk]
    have hnot : k ∉ ks := fun hc => hk (List.mem_dedup.mpr hc)
    exact (List.count_eq_zero.mpr hnot).symm

/-- The batch (grouped, coalesced) share count of `get_personnes_with_parts`
equals the single-row count query of `get_personne_with_parts`, for every
personne id and structure kind. -/
theorem batch_count_eq_single (parts : List NumeroPart)
    (structures : List Structure) (t pid : Int) :
    coalesceCount (partsSubquery parts structures t) pid
      = partsCountQuery parts structures pid t := by
  rw [partsSubquery, coalesce_group_count, partsCountQuery]
  rw [List.count_eq_countP, List.countP_map, ← List.countP_eq_length_filter]
  rw [List.countP_filter]
  apply List.countP_congr
  intro r _
  constructor
  · intro h
    have h1 := (Bool.and_eq_true _ _).mp h
    have hpid : (r.1.id_personne == pid) = true := by
      simpa using h1.1
    have h2 := (Bool.and_eq_true _ _).mp h1.2
    simp [hpid, h2.1, h2.2]
  · intro h
    have h1 := (Bool.and_eq_true _ _).mp h
    have h2 := (Bool.and_eq_true _ _).mp h1.1
    simp [Function.comp, h2.1, h2.2, h1.2]

/-- Primary-key lookup by `find?` returns the row itself when the key
column carries no duplicates. -/
theorem find?_key_eq_of_nodup {α : Type} (key : α → Int) (l : List α)
    (h : (l.map key).Nodup) (a : α) (ha : a ∈ l) :
    l.find? (fun b => key b == key a) = some a := by
  induction l with
  | nil => cases ha
  | cons x xs ih =>
    rw [List.map_cons, List.nodup_cons] at h
    rcases List.mem_cons.mp ha with rfl | hmem
    · exact List.find?_cons_of_pos xs (beq_self_eq_true (key a))
    · have hne : ¬ ((key x == key a) = true) := by
        intro hc
        exact h.1 ((beq_iff_eq.mp hc) ▸ List.mem_map_of_mem key hmem)
      rw [List.find?_cons_of_neg xs hne]
      exact ih h.2 hmem

/-- C3: every row produced by the batch query `get_personnes_with_parts`
carries exactly the share counts that the single-row query
`get_personne_with_parts` computes for that personne (assuming unique
personne primary keys), and the total is the sum of the GFA and TSL
counts. -/
theorem c3_single_and_batch_counts_agree (personnes : List Personne)
    (parts : List NumeroPart) (structures : List Structure) (skip limit : Nat)
    (fnom fville fcp : Option String) (fid_structure : Option Int)
    (fnpai fdecede ftermine ffondateur fde_droit fadherent fest_pm : Option Bool)
    (x : PersonneWithParts)
    (hids : (personnes.map (fun p => p.id)).Nodup)
    (hx : x ∈ (get_personnes_with_parts personnes parts structures skip limit
        fnom fville fcp fid_structure fnpai fdecede ftermine ffondateur
        fde_droit fadherent fest_pm).1) :
    get_personne_with_parts personnes parts structures x.personne.id = some x ∧
    x.nb_parts_total = x.nb_parts_gfa + x.nb_parts_sctl := by
  rw [get_personnes_with_parts] at hx
  simp only [List.mem_map] at hx
  rcases hx with ⟨p, hpage, hfx⟩
  have hpmem : p ∈ personnes := by
    have h1 := List.mem_of_mem_take hpage
    have h2 := List.mem_of_mem_drop h1
    have h3 := (List.mem_insertionSort _).mp h2
    exact List.mem_of_mem_filter h3
  have hfind : personnes.find? (fun q => q.id == p.id) = some p :=
    find?_key_eq_of_nodup (fun q => q.id) personnes hids p hpmem
  have hpx : x.personne = p := by rw [← hfx]
  constructor
  · rw [get_personne_with_parts, hpx, hfind, ← hfx]
    rw [batch_count_eq_single, batch_count_eq_single]
  · rw [← hfx]

/-- C3 witness: a one-personne, two-part ledger instantiating the theorem;
the batch query returns the personne with counts (1, 1, 2) and the
single-row query agrees. -/
theorem c3_single_and_batch_counts_agree_witness :
    (([⟨1, "A", none, none, none, false, false, false, false, false, false,
        false, none⟩] : List Personne).map (fun p => p.id)).Nodup ∧
    get_personne_with_parts
        [⟨1, "A", none, none, none, false, false, false, false, false, false,
          false, none⟩]
        [⟨10, 1, false, false, 0, 1, none, some 2⟩,
         ⟨11, 2, false, false, 0, 1, none, some 6⟩]
        [⟨2, "GFA1", 2⟩, ⟨6, "TSL1", 6⟩]
        (⟨⟨1, "A", none, none, none, false, false, false, false, false, false,
          false, none⟩, 1, 1, 2⟩ : PersonneWithParts).personne.id
      = some ⟨⟨1, "A", none, none, none, false, false, false, false, false,
          false, false, none⟩, 1, 1, 2⟩ :=
  ⟨by decide,
   (c3_single_and_batch_counts_agree
      [⟨1, "A", none, none, none, false, false, false, false, false, false,
        false, none⟩]
      [⟨10, 1, false, false, 0, 1, none, some 2⟩,
       ⟨11, 2, false, false, 0, 1, none, some 6⟩]
      [⟨2, "GFA1", 2⟩, ⟨6, "TSL1", 6⟩] 0 100
      none none none none none none none none none none none
      ⟨⟨1, "A", none, none, none, false, false, false, false, false, false,
        false, none⟩, 1, 1, 2⟩
      (by decide) (by decide)).1⟩

/-- Result record of `get_parts_totals`: global share totals plus the
distinct shareholder count. -/
structure PartsTotals where
  gfa : Nat
  sctl : Nat
  total : Nat
  actionnaires : Nat
  deriving DecidableEq

/-- `get_parts_totals` from `crud.py`: the two joined counts over
non-terminated parts by structure kind, their sum, and
`count(distinct id_personne)` over non-terminated parts. -/
def get_parts_totals (parts : List NumeroPart) (structures : List Structure) :
    PartsTotals :=
  let gfa_total := ((joinPartStructure parts structures).filter (fun r =>
    r.1.termine == false && r.2.type_structure == TypeStructure.GFA)).length
  let sctl_total := ((joinPartStructure parts structures).filter (fun r =>
    r.1.termine == false && r.2.type_structure == TypeStructure.TSL)).length
  let actionnaires := (((parts.filter (fun p => p.termine == false)).map
    (fun p => p.id_personne)).dedup).length
  ⟨gfa_total, sctl_total, gfa_total + sctl_total, actionnaires⟩

/-- Filtering a list on agreement of a unique key with a fixed optional
value yields at most the row that `find?` yields. -/
theorem filter_keyed_eq_find_toList {α : Type} (key : α → Int) (l : List α)
    (h : (l.map key).Nodup) (o : Option Int) :
    l.filter (fun a => o == some (key a)) = (l.find? (fun a => o == some (key a))).toList := by
  induction l with
  | nil => rfl
  | cons x xs ih =>
    rw [List.map_cons, List.nodup_cons] at h
    by_cases hx : (o == some (key x)) = true
    · have hrest : xs.filter (fun a => o == some (key a)) = [] := by
        rw [List.filter_eq_nil_iff]
        intro b hb hpb
        have hxb : key x = key b := by
          have h1 := beq_iff_eq.mp hx
          have h2 := beq_iff_eq.mp hpb
          have h3 := h1.symm.trans h2
          exact Option.some.inj h3
        exact h.1 (hxb ▸ List.mem_map_of_mem key hb)
      simp [List.filter_cons, List.find?_cons, hx, hrest]
    · have hxf : (o == some (key x)) = false := Bool.eq_false_iff.mpr hx
      simp [List.filter_cons, List.find?_cons, hxf, ih h.2]

/-- Length of a filtered part-structure join equals, under unique structure
primary keys, a per-part count using a `find?` lookup of the owning
structure. -/
theorem join_filter_length (parts : List NumeroPart) (structures : List Structure)
    (P : NumeroPart → Bool) (Q : Structure → Bool)
    (h : (structures.map (fun st => st.id)).Nodup) :
    ((joinPartStructure parts structures).filter (fun r => P r.1 && Q r.2)).length
      = parts.countP (fun np => P np &&
          ((structures.find? (fun st => np.id_structure == some st.id)).any Q)) := by
  induction parts with
  | nil => rfl
  | cons np rest ih =>
    rw [joinPartStructure, List.flatMap_cons, List.filter_append,
      List.length_append, List.countP_cons]
    rw [joinPartStructure] at ih
    rw [ih, Nat.add_comm]
    congr 1
    rw [List.filter_map, List.length_map, ← List.countP_eq_length_filter]
    rw [filter_keyed_eq_find_toList (fun st => st.id) structures h np.id_structure]
    cases hfind : structures.find? (fun st => np.id_structure == some st.id) with
    | none => simp
    | some st0 => simp [Function.comp, List.countP_cons]

/-- C6: `get_parts_totals` returns the count of non-terminated parts owned
by a GFA-kind structure, the count owned by a TSL-kind structure, their sum
as `total`, and the number of distinct personnes holding at least one
non-terminated part, assuming unique structure primary keys; the two-part,
two-personne scenario yields `gfa = 1, sctl = 1, total = 2,
actionnaires = 2`. -/
theorem c6_get_parts_totals_correct (parts : List NumeroPart)
    (structures : List Structure)
    (h : (structures.map (fun st => st.id)).Nodup) :
    ((get_parts_totals parts structures).gfa
        = parts.countP (fun np => !np.termine &&
            ((structures.find? (fun st => np.id_structure == some st.id)).any
              (fun st => st.type_structure == TypeStructure.GFA)))) ∧
    ((get_parts_totals parts structures).sctl
        = parts.countP (fun np => !np.termine &&
            ((structures.find? (fun st => np.id_structure == some st.id)).any
              (fun st => st.type_structure == TypeStructure.TSL)))) ∧
    ((get_parts_totals parts structures).total
        = (get_parts_totals parts structures).gfa
            + (get_parts_totals parts structures).sctl) ∧
    ((get_parts_totals parts structures).actionnaires
        = ((parts.filter (fun p => !p.termine)).map
            (fun p => p.id_personne)).toFinset.card) ∧
    (get_parts_totals
        [⟨1, 1, false, false, 0, 10, none, some 1⟩,
         ⟨2, 1, false, false, 0, 20, none, some 2⟩]
        [⟨1, "G", 2⟩, ⟨2, "T", 6⟩]
      = ⟨1, 1, 2, 2⟩) := by
  refine ⟨?_, ?_, rfl, ?_, by decide⟩
  · rw [get_parts_totals]
    rw [join_filter_length parts structures (fun np => np.termine == false)
      (fun st => st.type_structure == TypeStructure.GFA) h]
    simp only [beq_false]
  · rw [get_parts_totals]
    rw [join_filter_length parts structures (fun np => np.termine == false)
      (fun st => st.type_structure == TypeStructure.TSL) h]
    simp only [beq_false]
  · rw [get_parts_totals, List.card_toFinset]
    simp only [beq_false]

/-- C6 witness: the two-part, two-personne, two-structure scenario
discharging the unique-key hypothesis. -/
theorem c6_get_parts_totals_correct_witness :
    (([⟨1, "G", 2⟩, ⟨2, "T", 6⟩] : List Structure).map (fun st => st.id)).Nodup ∧
    get_parts_totals
        [⟨1, 1, false, false, 0, 10, none, some 1⟩,
         ⟨2, 1, false, false, 0, 20, none, some 2⟩]
        [⟨1, "G", 2⟩, ⟨2, "T", 6⟩]
      = ⟨1, 1, 2, 2⟩ :=
  ⟨by decide,
   (c6_get_parts_totals_correct
      [⟨1, 1, false, false, 0, 10, none, some 1⟩,
       ⟨2, 1, false, false, 0, 20, none, some 2⟩]
      [⟨1, "G", 2⟩, ⟨2, "T", 6⟩] (by decide)).2.2.2.2⟩

/-- Filtering on a predicate that pins down a unique key yields at most the
row that `find?` yields. -/
theorem filter_unikey_eq_find_toList {α : Type} (key : α → Int) (l : List α)
    (h : (l.map key).Nodup) (p : α → Bool)
    (hp : ∀ a b, p a = true → p b = true → key a = key b) :
    l.filter p = (l.find? p).toList := by
  induction l with
  | nil => rfl
  | cons x xs ih =>
    rw [List.map_cons, List.nodup_cons] at h
    by_cases hx : p x = true
    · have hrest : xs.filter p = [] := by
        rw [List.filter_eq_nil_iff]
        intro b hb hpb
        exact h.1 ((hp x b hx hpb) ▸ List.mem_map_of_mem key hb)
      simp [List.filter_cons, List.find?_cons, hx, hrest]
    · have hxf : p x = false := Bool.eq_false_iff.mpr hx
      simp [List.filter_cons, List.find?_cons, hxf, ih h.2]

/-- Under unique parcelle primary keys, the filtered subdivision-parcelle
join projected back to subdivisions equals a per-subdivision filter that
looks the owning parcelle up by `find?`. -/
theorem join_sub_parcelle_filter (subs : List Subdivision)
    (parcs : List Parcelle) (F : Subdivision × Parcelle → Bool)
    (h : (parcs.map (fun par => par.id)).Nodup) :
    (((joinSubdivisionParcelle subs parcs).filter F).map (fun r => r.1))
      = subs.filter (fun sub =>
          match parcs.find? (fun par => sub.id_parcelle == par.id) with
          | some par => F (sub, par)
          | none => false) := by
  induction subs with
  | nil => rfl
  | cons sub rest ih =>
    rw [joinSubdivisionParcelle, List.flatMap_cons, List.filter_append,
      List.map_append]
    rw [joinSubdivisionParcelle] at ih
    rw [ih, List.filter_cons]
    have hp : ∀ a b : Parcelle, (sub.id_parcelle == a.id) = true →
        (sub.id_parcelle == b.id) = true → a.id = b.id := by
      intro a b ha hb
      exact (beq_iff_eq.mp ha).symm.trans (beq_iff_eq.mp hb)
    rw [filter_unikey_eq_find_toList (fun par => par.id) parcs h
      (fun par => sub.id_parcelle == par.id) hp]
    cases hfind : parcs.find? (fun par => sub.id_parcelle == par.id) with
    | none => simp
    | some par =>
      by_cases hF : F (sub, par) = true <;> simp [List.filter_cons, hF]

/-- C7: for every filter combination and supplied point-value row, under
unique parcelle primary keys, `get_fermage_totaux` returns the sums of
surface and revenu over the matching subdivisions, the sum of the rent of
each matching subdivision computed with its own parcelle `sctl` flag (the
cooperative point value when that flag is true, the non-cooperative one
otherwise, and a false flag when the parcelle is absent), and the number of
distinct parcelles among the matching subdivisions. -/
theorem c7_get_fermage_totaux_correct (subs : List Subdivision)
    (parcs : List Parcelle) (fe fc : Option Int) (fs : Option Bool)
    (v : ValeurPoint) (h : (parcs.map (fun par => par.id)).Nodup) :
    ((get_fermage_totaux subs parcs fe fc fs (some v)).total_surface
        = ((subs.filter (fun sub =>
            match parcs.find? (fun par => sub.id_parcelle == par.id) with
            | some par => fermageMatches fe fc fs (sub, par)
            | none => false)).map (fun s => s.surface)).sum) ∧
    ((get_fermage_totaux subs parcs fe fc fs (some v)).total_revenu
        = ((subs.filter (fun sub =>
            match parcs.find? (fun par => sub.id_parcelle == par.id) with
            | some par => fermageMatches fe fc fs (sub, par)
            | none => false)).map (fun s => s.revenu)).sum) ∧
    ((get_fermage_totaux subs parcs fe fc fs (some v)).total_montant
        = ((subs.filter (fun sub =>
            match parcs.find? (fun par => sub.id_parcelle == par.id) with
            | some par => fermageMatches fe fc fs (sub, par)
            | none => false)).map (fun sub =>
              calculer_montant_fermage sub.point_fermage sub.surface
                (match parcs.find? (fun par => sub.id_parcelle == par.id) with
                 | some par => par.sctl
                 | none => false)
                v.valeur_point_gfa v.valeur_point_sctl false false
                v.valeur_supp_gfa v.valeur_supp_sctl)).sum) ∧
    ((get_fermage_totaux subs parcs fe fc fs (some v)).nb_parcelles
        = ((subs.filter (fun sub =>
            match parcs.find? (fun par => sub.id_parcelle == par.id) with
            | some par => fermageMatches fe fc fs (sub, par)
            | none => false)).map (fun s => s.id_parcelle)).toFinset.card) := by
  have hpipe := join_sub_parcelle_filter subs parcs (fermageMatches fe fc fs) h
  refine ⟨?_, ?_, ?_, ?_⟩
  · show ((((joinSubdivisionParcelle subs parcs).filter
        (fermageMatches fe fc fs)).map (fun r => r.1)).map
          (fun s => s.surface)).sum = _
    rw [hpipe]
  · show ((((joinSubdivisionParcelle subs parcs).filter
        (fermageMatches fe fc fs)).map (fun r => r.1)).map
          (fun s => s.revenu)).sum = _
    rw [hpipe]
  · show ((((joinSubdivisionParcelle subs parcs).filter
        (fermageMatches fe fc fs)).map (fun r => r.1)).map
          (montantForSubdivision parcs v)).sum = _
    rw [hpipe]
    rfl
  · show (((((joinSubdivisionParcelle subs parcs).filter
        (fermageMatches fe fc fs)).map (fun r => r.1)).map
          (fun s => s.id_parcelle)).dedup).length = _
    rw [hpipe, List.card_toFinset]

/-- C7 witness: a one-subdivision, one-parcelle cadastre discharging the
unique-key hypothesis; the total surface equals the matching sum. -/
theorem c7_get_fermage_totaux_correct_witness :
    (([⟨1, "P1", true, 3, none, none⟩] : List Parcelle).map
        (fun par => par.id)).Nodup ∧
    (get_fermage_totaux [⟨1, 0, 0, 2, 3, 0, 10, 1, none⟩]
        [⟨1, "P1", true, 3, none, none⟩] none none none
        (some ⟨1, 2024, 1, 2, 0, 0⟩)).total_surface
      = ((([⟨1, 0, 0, 2, 3, 0, 10, 1, none⟩] : List Subdivision).filter
          (fun sub =>
            match ([⟨1, "P1", true, 3, none, none⟩] : List Parcelle).find?
                (fun par => sub.id_parcelle == par.id) with
            | some par => fermageMatches none none none (sub, par)
            | none => false)).map (fun s => s.surface)).sum :=
  ⟨by decide,
   (c7_get_fermage_totaux_correct [⟨1, 0, 0, 2, 3, 0, 10, 1, none⟩]
      [⟨1, "P1", true, 3, none, none⟩] none none none ⟨1, 2024, 1, 2, 0, 0⟩
      (by decide)).1⟩

/-- `func.coalesce(Mouvement.date_operation, Acte.date_acte)` after the
outer join `Mouvement LEFT JOIN Acte ON Mouvement.id_acte = Acte.id`: the
operation date when present, else the linked acte date, else NULL. -/
def effective_date (actes : List Acte) (m : Mouvement) : Option Date :=
  match m.date_operation with
  | some d => some d
  | none =>
    match m.id_acte with
    | some i =>
      match actes.find? (fun a => a.id == i) with
      | some a => a.date_acte
      | none => none
    | none => none

/-- PostgreSQL `ORDER BY key DESC` on a nullable key: NULL keys sort before
every value (NULLS FIRST is the PostgreSQL default for descending order)
and then larger values come first. -/
def pgDescLe (a b : Option Date) : Bool :=
  match a, b with
  | none, _ => true
  | some _, none => false
  | some x, some y => y ≤ x

/-- Optional where clauses of `get_mouvements`. -/
def mouvementMatches (fp fa : Option Int) (fs : Option Bool)
    (m : Mouvement) : Bool :=
  (match fp with
   | some v => m.id_personne == v
   | none => true) &&
  (match fa with
   | some v => m.id_acte == some v
   | none => true) &&
  (match fs with
   | some v => m.sens == v
   | none => true)

/-- `get_mouvements` from `crud.py`: filter, count, order by the effective
date descending (PostgreSQL semantics on NULL keys), then paginate. -/
def get_mouvements (mouvements : List Mouvement) (actes : List Acte)
    (fp fa : Option Int) (fs : Option Bool) (skip limit : Nat) :
    List Mouvement × Nat :=
  let matching := mouvements.filter (mouvementMatches fp fa fs)
  let count := matching.length
  let sorted := List.insertionSort
    (fun m1 m2 =>
      pgDescLe (effective_date actes m1) (effective_date actes m2) = true)
    matching
  ((sorted.drop skip).take limit, count)

theorem pgDescLe_total (a b : Option Date) :
    pgDescLe a b = true ∨ pgDescLe b a = true := by
  cases a with
  | none => exact Or.inl rfl
  | some x =>
    cases b with
    | none => exact Or.inr rfl
    | some y =>
      rcases Int.le_total x y with h | h
      · exact Or.inr (by simpa [pgDescLe] using h)
      · exact Or.inl (by simpa [pgDescLe] using h)

theorem pgDescLe_trans (a b c : Option Date) (hab : pgDescLe a b = true)
    (hbc : pgDescLe b c = true) : pgDescLe a c = true := by
  cases a with
  | none => rfl
  | some x =>
    cases b with
    | none => exact absurd hab (by simp [pgDescLe])
    | some y =>
      cases c with
      | none => exact absurd hbc (by simp [pgDescLe])
      | some z =>
        have h1 : y ≤ x := by simpa [pgDescLe] using hab
        have h2 : z ≤ y := by simpa [pgDescLe] using hbc
        simpa [pgDescLe] using Int.le_trans h2 h1

/-- C5 counterexample: mouvement A (no operation date, acte dated
2020-01-01), B (operation date 2021-06-01) and C (no date, no acte) are
listed as [C, B, A] — the mouvement lacking both dates sorts FIRST under
the PostgreSQL descending order, not last — so the claimed order
[B, A, C] does not hold. -/
theorem c5_get_mouvements_order_counterexample :
    ((get_mouvements
        [⟨1, none, true, 0, 1, some 1⟩, ⟨2, some 20210601, true, 0, 1, none⟩,
         ⟨3, none, true, 0, 1, none⟩]
        [⟨1, "A1", some 20200101, false, none⟩] none none none 0 100).1
      = [⟨3, none, true, 0, 1, none⟩, ⟨2, some 20210601, true, 0, 1, none⟩,
         ⟨1, none, true, 0, 1, some 1⟩]) ∧
    ((get_mouvements
        [⟨1, none, true, 0, 1, some 1⟩, ⟨2, some 20210601, true, 0, 1, none⟩,
         ⟨3, none, true, 0, 1, none⟩]
        [⟨1, "A1", some 20200101, false, none⟩] none none none 0 100).1
      ≠ [⟨2, some 20210601, true, 0, 1, none⟩, ⟨1, none, true, 0, 1, some 1⟩,
         ⟨3, none, true, 0, 1, none⟩]) := by
  constructor <;> decide

/-- C5 amended: `get_mouvements` returns the matching mouvements ordered
descending by effective date (operation date when present, else the linked
acte date), with mouvements lacking both dates sorted FIRST (PostgreSQL
places NULL keys first under descending order), and the count equals the
number of matching mouvements. -/
theorem c5_get_mouvements_order_amended (ms : List Mouvement)
    (acts : List Acte) (fp fa : Option Int) (fs : Option Bool) :
    ((get_mouvements ms acts fp fa fs 0 ms.length).1.Sorted
      (fun m1 m2 =>
        pgDescLe (effective_date acts m1) (effective_date acts m2) = true)) ∧
    ((get_mouvements ms acts fp fa fs 0 ms.length).1.Perm
      (ms.filter (mouvementMatches fp fa fs))) ∧
    ((get_mouvements ms acts fp fa fs 0 ms.length).2
      = (ms.filter (mouvementMatches fp fa fs)).length) := by
  letI : IsTotal Mouvement (fun m1 m2 =>
      pgDescLe (effective_date acts m1) (effective_date acts m2) = true) :=
    ⟨fun a b => pgDescLe_total (effective_date acts a) (effective_date acts b)⟩
  letI : IsTrans Mouvement (fun m1 m2 =>
      pgDescLe (effective_date acts m1) (effective_date acts m2) = true) :=
    ⟨fun a b c hab hbc => pgDescLe_trans (effective_date acts a)
      (effective_date acts b) (effective_date acts c) hab hbc⟩
  have hfull : (get_mouvements ms acts fp fa fs 0 ms.length).1
      = List.insertionSort
        (fun m1 m2 =>
          pgDescLe (effective_date acts m1) (effective_date acts m2) = true)
        (ms.filter (mouvementMatches fp fa fs)) := by
    rw [get_mouvements, List.drop_zero]
    apply List.take_of_length_le
    have h1 := (List.perm_insertionSort
      (fun m1 m2 =>
        pgDescLe (effective_date acts m1) (effective_date acts m2) = true)
      (ms.filter (mouvementMatches fp fa fs))).length_eq
    rw [h1]
    exact List.length_filter_le _ ms
  refine ⟨?_, ?_, rfl⟩
  · rw [hfull]
    exact List.sorted_insertionSort _ _
  · rw [hfull]
    exact List.perm_insertionSort _ _

/-- `create_valeur_point` from `crud.py`: validate, add, commit. The
`annee` column of `ValeurPoint` carries only a plain (non-unique) index in
`models.py` and neither the route nor the store checks for an existing row
with the same year, so the insert is unconditional and always succeeds. -/
def create_valeur_point (rows : List ValeurPoint) (valeur_in : ValeurPoint) :
    List ValeurPoint :=
  rows ++ [valeur_in]

/-- C8 counterexample: inserting a second `ValeurPoint` for year 2020 into
a store that already holds one succeeds silently — afterwards two rows for
2020 coexist, so the duplicate-year insert is not a uniqueness-constraint
violation and the at-most-one-row-per-year property fails. -/
theorem c8_create_valeur_point_duplicate_counterexample :
    (((create_valeur_point (create_valeur_point [] ⟨1, 2020, 1, 1, 0, 0⟩)
        ⟨2, 2020, 2, 2, 0, 0⟩).filter (fun r => r.annee == 2020)).length = 2) ∧
    ¬ (((create_valeur_point (create_valeur_point [] ⟨1, 2020, 1, 1, 0, 0⟩)
        ⟨2, 2020, 2, 2, 0, 0⟩).filter (fun r => r.annee == 2020)).length ≤ 1) := by
  constructor <;> decide

/-- C8 amended: creating a `ValeurPoint` always succeeds — no uniqueness
rule restricts `annee`, which carries only a non-unique index — so the
number of rows for year y grows by one whenever the new row has that year,
duplicate years can coexist, and `get_valeur_point_by_annee` returns the
earliest-inserted matching row rather than failing. -/
theorem c8_create_valeur_point_duplicate_amended (rows : List ValeurPoint)
    (v : ValeurPoint) (y : Int) :
    (((create_valeur_point rows v).filter (fun r => r.annee == y)).length
      = (rows.filter (fun r => r.annee == y)).length
          + (if v.annee = y then 1 else 0)) ∧
    (get_valeur_point_by_annee (create_valeur_point rows v) y
      = match get_valeur_point_by_annee rows y with
        | some r => some r
        | none => if v.annee == y then some v else none) := by
  constructor
  · rw [create_valeur_point, List.filter_append, List.length_append]
    congr 1
    by_cases hv : v.annee = y
    · simp [List.filter_cons, hv]
    · simp [List.filter_cons, hv, beq_eq_false_iff_ne.mpr hv]
  · rw [create_valeur_point, get_valeur_point_by_annee, List.find?_append]
    rw [get_valeur_point_by_annee]
    cases hfind : rows.find? (fun r => r.annee == y) with
    | some r => rfl
    | none =>
      by_cases hv : (v.annee == y) = true
      · simp [List.find?_cons, hv, Option.or]
      · have hvf : (v.annee == y) = false := Bool.eq_false_iff.mpr hv
        simp [List.find?_cons, hvf, Option.or]

end SctlGfa
